import Mathlib

/-!
A shallow embedding of the `mycodesmells/golang-websockets` chat server.

The Go program keeps a global slice `clients` of live websocket sessions.
`onWsConnect` constructs a `Client` (`NewClient`), appends it to the slice and
greets it (`addClientAndGreet`), then runs two loops: `listenToWrite` drains the
buffered channel `ch` to the connection, `listenToRead` reads frames and calls
`broadcast`, which performs the channel send `c.ch <- msg` on every client.
An HTTP endpoint (`broadcastHandler` with `readMsgFromRequest`) injects a
message taken from the request path.

Channels are modelled explicitly: a bounded buffer plus its capacity; a send
that cannot complete (full buffer, or an unbuffered channel with no waiting
receiver) is modelled as `none`, meaning the sending goroutine blocks at that
point.  The two-goroutine termination hand-off after a clean end-of-stream is
modelled as a small interleaving transition system (`hsNext`).
-/

/-- Message mirrors the Go struct: author and body strings, compared by value. -/
structure Message where
  author : String
  body : String
  deriving DecidableEq

/-- A Go channel with a bounded buffer, `make(chan α, cap)`: `buf` holds the
queued elements oldest first, `cap` is the capacity fixed at allocation
(0 for an unbuffered channel). -/
structure Chan (α : Type) where
  buf : List α
  cap : Nat
  deriving DecidableEq

/-- Client mirrors the Go struct: the websocket connection (represented by a
numeric handle), the buffered inbound message channel `ch`, and the unbuffered
termination channel `close`. -/
structure Client where
  connection : Nat
  ch : Chan Message
  close : Chan Bool
  deriving DecidableEq

/-- An observable I/O effect of the server code: a frame written directly on a
websocket connection (`websocket.JSON.Send`), or a line printed to the process
log. -/
inductive Effect where
  | connSend (conn : Nat) (m : Message)
  | printLine (s : String)
  deriving DecidableEq

/-- NewClient mirrors the Go constructor: `ch := make(chan *Message, 100)`,
`close := make(chan bool)` (unbuffered, capacity 0), returning
`Client{ws, ch, close}`.  The second component lists the connection I/O
performed by the constructor body: the Go body performs none. -/
def NewClient (ws : Nat) : Client × List Effect :=
  (⟨ws, ⟨[], 100⟩, ⟨[], 0⟩⟩, [])

/-- The buffered-channel send `ch <- m` as seen by the sender at one instant:
it completes immediately exactly when the buffer is below capacity (appending
the element); `none` means the sending goroutine blocks at this statement. -/
def chanSend (ch : Chan Message) (m : Message) : Option (Chan Message) :=
  if ch.buf.length < ch.cap then some { ch with buf := ch.buf ++ [m] } else none

/-- broadcast mirrors the Go `broadcast`: iterate over the client list in order
and perform the blocking channel send `c.ch <- msg` on each.  If a send cannot
complete the broadcaster is blocked there, modelled by `none`: no later client
is reached.  (The Go body also logs a "Broadcasting" line, not modelled.) -/
def broadcast (msg : Message) : List Client → Option (List Client)
  | [] => some []
  | c :: cs =>
    match chanSend c.ch msg with
    | some ch' => (broadcast msg cs).map (fun cs' => { c with ch := ch' } :: cs')
    | none => none

/-- addClientAndGreet mirrors the Go function: append the client to the list,
then `websocket.JSON.Send(client.connection, Message{"Server", "Welcome!"})` —
a direct write on the new connection, not a call to `broadcast`.  The second
component lists the connection I/O performed. -/
def addClientAndGreet (list : List Client) (client : Client) :
    List Client × List Effect :=
  (list ++ [client], [Effect.connSend client.connection ⟨"Server", "Welcome!"⟩])

/-- The part of Go's `onWsConnect` that runs before `client.listen()` starts the
two loops: construct the client and register-and-greet it.  Result: the registry
afterwards, the new client, and the connection I/O effects in program order.
(The deferred `ws.Close()` of `onWsConnect` runs only when `listen()` returns.) -/
def onWsConnectSetup (reg : List Client) (ws : Nat) :
    List Client × Client × List Effect :=
  let c := NewClient ws
  let r := addClientAndGreet reg c.1
  (r.1, c.1, c.2 ++ r.2)

/-- Model of Go `strings.Split(s, "/")` for the single-character separator used
by `readMsgFromRequest`: cut at every slash keeping empty segments.  `acc` holds
the characters of the current segment in reverse. -/
def splitGoAux : List Char → List Char → List String
  | [], acc => [String.mk acc.reverse]
  | c :: cs, acc =>
    if c = '/' then String.mk acc.reverse :: splitGoAux cs []
    else splitGoAux cs (c :: acc)

/-- strings.Split of the request path on "/": for example "/broadcast/hi"
becomes ["", "broadcast", "hi"] and "" becomes [""]. -/
def splitGo (s : String) : List String :=
  splitGoAux s.toList []

/-- readMsgFromRequest mirrors the Go function:
`parts := strings.Split(r.URL.Path, "/")` then `parts[2]`.  Go's unchecked
index is modelled with `List.get?`: `none` is the index-out-of-range runtime
panic. -/
def readMsgFromRequest (path : String) : Option String :=
  (splitGo path).get? 2

/-- broadcastHandler mirrors the Go handler: read the body from the request
path, `broadcast(&Message{"Server", msg})`, then write "Broadcasting %v" to the
response.  The outer `none` is the panic inside `readMsgFromRequest` (neither
broadcast nor response happens); otherwise the triple carries the registry after
the broadcast (`none` inside: the broadcast blocked), the message handed to
`broadcast`, and the response body. -/
def broadcastHandler (clients : List Client) (path : String) :
    Option (Option (List Client) × Message × String) :=
  match readMsgFromRequest path with
  | none => none
  | some msg =>
    some (broadcast ⟨"Server", msg⟩ clients, ⟨"Server", msg⟩,
      "Broadcasting " ++ msg)

/-- Outcome of one `websocket.JSON.Receive` call in the read loop: a decoded
message, a clean end-of-stream (`io.EOF`), or any other receive/decode error. -/
inductive RecvResult where
  | ok (m : Message)
  | eofR
  | errR
  deriving DecidableEq

/-- The `fmt.Printf("Received: %+v\n", msg)` line of the read loop. -/
def printReceived (m : Message) : Effect :=
  Effect.printLine ("Received: " ++ m.author ++ " " ++ m.body)

/-- Result of one iteration of the default branch of Go's `listenToRead`:
the registry after the iteration (`none`: the iteration is blocked inside
`broadcast`), whether `c.close <- true` was signalled, whether control flows
back to the top of the `for` loop (the default branch contains no `return`),
and the log effects. -/
structure ReadIter where
  clients : Option (List Client)
  closeSignal : Bool
  loopsAgain : Bool
  effects : List Effect
  deriving DecidableEq

/-- One iteration of the default branch of `listenToRead`, by receive outcome:
print the received value, then on `io.EOF` signal `close`; on any other error do
nothing — the `c.server.Err(err)` call is commented out in the source — and on
success `broadcast(&msg)`.  Every branch falls through to the next loop
iteration; on EOF or error the printed value is the zero `Message`. -/
def listenToReadIter (clients : List Client) (r : RecvResult) : ReadIter :=
  match r with
  | .ok m =>
    { clients := broadcast m clients, closeSignal := false, loopsAgain := true,
      effects := [printReceived m] }
  | .eofR =>
    { clients := some clients, closeSignal := true, loopsAgain := true,
      effects := [printReceived ⟨"", ""⟩] }
  | .errR =>
    { clients := some clients, closeSignal := false, loopsAgain := true,
      effects := [printReceived ⟨"", ""⟩] }

/-- Program counter of `listenToRead` once the peer has closed the stream, so
every later `Receive` returns `io.EOF`: at the top of its select (`rLoop`);
blocked sending `c.close <- true` from the EOF branch (`rSendEof`); blocked
sending `c.close <- true` from its `case <-c.close` branch (`rReply`); returned
(`rDone`). -/
inductive RState where
  | rLoop
  | rSendEof
  | rReply
  | rDone
  deriving DecidableEq

/-- Program counter of `listenToWrite` in the same scenario: at the top of its
select (`wLoop`); just received from `c.close`, about to send the reply
(`wGotClose`); blocked sending `c.close <- true` (`wReply`); returned
(`wDone`). -/
inductive WState where
  | wLoop
  | wGotClose
  | wReply
  | wDone
  deriving DecidableEq

/-- Joint state of the two goroutines of one client during the termination
hand-off after a clean disconnect.  Scenario: the inbound queue `ch` is empty
and no concurrent broadcast runs, so the `msg := <-c.ch` select case of the
write loop is never ready. -/
structure HS where
  rd : RState
  wr : WState
  deriving DecidableEq

/-- Select at the top of `listenToRead`: when `listenToWrite` is blocked sending
on `close`, the ready `case <-c.close` is taken (see `writeReplyRdv`); otherwise
the `default` branch runs `Receive`, which returns `io.EOF` again, and the read
loop proceeds to its `c.close <- true`. -/
def readDefaultStep (s : HS) : List HS :=
  match s.rd, s.wr with
  | .rLoop, .wReply => []
  | .rLoop, w => [⟨.rSendEof, w⟩]
  | _, _ => []

/-- Rendezvous on the unbuffered `close` channel with `listenToRead` as the
sender and `listenToWrite`'s select as the receiver. -/
def readSendRdv (s : HS) : List HS :=
  match s.rd, s.wr with
  | .rSendEof, .wLoop => [⟨.rLoop, .wGotClose⟩]
  | .rReply, .wLoop => [⟨.rDone, .wGotClose⟩]
  | _, _ => []

/-- Rendezvous on `close` with `listenToWrite` as the sender (its reply
`c.close <- true`) and `listenToRead`'s select as the receiver; the write loop
then returns. -/
def writeReplyRdv (s : HS) : List HS :=
  match s.rd, s.wr with
  | .rLoop, .wReply => [⟨.rReply, .wDone⟩]
  | _, _ => []

/-- Internal step of `listenToWrite` between receiving from `close` and reaching
its own `c.close <- true`. -/
def writeToReply (s : HS) : List HS :=
  match s.wr with
  | .wGotClose => [⟨s.rd, .wReply⟩]
  | _ => []

/-- All successor states of the hand-off under goroutine interleaving. -/
def hsNext (s : HS) : List HS :=
  readDefaultStep s ++ readSendRdv s ++ writeReplyRdv s ++ writeToReply s

/-- Both loops start at the top of their select statements. -/
def initHS : HS :=
  ⟨.rLoop, .wLoop⟩

/-- States of the hand-off reachable from `initHS` by interleaving the two
goroutines. -/
inductive hsReachable : HS → Prop where
  | init : hsReachable initHS
  | step {s t : HS} : hsReachable s → t ∈ hsNext s → hsReachable t

/-- The seven states the hand-off can actually reach. -/
def hsStates : List HS :=
  [⟨.rLoop, .wLoop⟩, ⟨.rSendEof, .wLoop⟩, ⟨.rLoop, .wGotClose⟩,
   ⟨.rSendEof, .wGotClose⟩, ⟨.rLoop, .wReply⟩, ⟨.rSendEof, .wReply⟩,
   ⟨.rReply, .wDone⟩]

/-- Delivery of one message to one client: the message appended to the queue. -/
def deliver (m : Message) (c : Client) : Client :=
  { c with ch := { c.ch with buf := c.ch.buf ++ [m] } }

lemma hsStates_closed : ∀ s ∈ hsStates, ∀ t ∈ hsNext s, t ∈ hsStates := by
  decide

lemma hsReachable_mem {s : HS} (h : hsReachable s) : s ∈ hsStates := by
  induction h with
  | init => decide
  | step _ hmem ih => exact hsStates_closed _ ih _ hmem

lemma mem_hsStates_rd_ne {s : HS} (h : s ∈ hsStates) : s.rd ≠ RState.rDone := by
  have hall : ∀ x ∈ hsStates, x.rd ≠ RState.rDone := by decide
  exact hall s h

lemma broadcast_complete (m : Message) :
    ∀ cs : List Client, (∀ c ∈ cs, c.ch.buf.length < c.ch.cap) →
      broadcast m cs = some (cs.map (deliver m)) := by
  intro cs
  induction cs with
  | nil => intro _; rfl
  | cons c cs ih =>
    intro h
    have hc : c.ch.buf.length < c.ch.cap := h c (List.mem_cons_self c cs)
    have hrest := ih (fun x hx => h x (List.mem_cons_of_mem _ hx))
    simp [broadcast, chanSend, hc, hrest, deliver]

lemma broadcast_blocked (m : Message) :
    ∀ cs : List Client, (∃ c ∈ cs, ¬ c.ch.buf.length < c.ch.cap) →
      broadcast m cs = none := by
  intro cs
  induction cs with
  | nil => rintro ⟨c, hc, -⟩; cases hc
  | cons a cs ih =>
    rintro ⟨c, hc, hfull⟩
    rcases List.mem_cons.mp hc with h | h
    · subst h
      simp [broadcast, chanSend, hfull]
    · by_cases ha : a.ch.buf.length < a.ch.cap
      · have hrest := ih ⟨c, h, hfull⟩
        simp [broadcast, chanSend, ha, hrest]
      · simp [broadcast, chanSend, ha]

lemma broadcast_length (m : Message) :
    ∀ cs cs' : List Client, broadcast m cs = some cs' → cs'.length = cs.length := by
  intro cs
  induction cs with
  | nil =>
    intro cs' h
    simp only [broadcast] at h
    cases h
    rfl
  | cons a cs ih =>
    intro cs' h
    simp only [broadcast] at h
    cases hse : chanSend a.ch m with
    | none => rw [hse] at h; cases h
    | some ch' =>
      rw [hse] at h
      cases hb : broadcast m cs with
      | none => rw [hb] at h; cases h
      | some l =>
        rw [hb] at h
        cases h
        simp [ih l hb]

/-- A session whose inbound queue holds 100 messages: at capacity. -/
def fullClient : Client :=
  ⟨0, ⟨List.replicate 100 ⟨"a", "x"⟩, 100⟩, ⟨[], 0⟩⟩

/-- The client as constructed by `NewClient` for connection handle 0. -/
def clientC0 : Client :=
  (NewClient 0).1

/-- C1 (counterexample): with a registry holding a session at capacity followed
by an empty one, `broadcast` blocks at the full session (`none`): the message is
not dropped for it, the broadcaster does not continue, and the second session is
never delivered to — refuting the claimed non-blocking drop. -/
theorem C1_counterexample :
    broadcast ⟨"u", "hi"⟩ [fullClient, (NewClient 1).1] = none := by
  have h : ¬ fullClient.ch.buf.length < fullClient.ch.cap := by
    simp [fullClient]
  exact broadcast_blocked _ _ ⟨fullClient, by simp, h⟩

/-- C1 (amended): Go's `c.ch <- msg` is a blocking send, so `broadcast` performs
a blocking enqueue on each session in registry order: if some session's queue is
at capacity the broadcaster blocks there — the loop does not complete, the
message is not dropped, and later sessions are not delivered to — and when no
queue is full the message is appended to every session's queue. -/
theorem C1_broadcast_blocks_on_full :
    (∀ (m : Message) (cs : List Client),
      (∃ c ∈ cs, ¬ c.ch.buf.length < c.ch.cap) → broadcast m cs = none) ∧
    (∀ (m : Message) (cs : List Client),
      (∀ c ∈ cs, c.ch.buf.length < c.ch.cap) →
        broadcast m cs = some (cs.map (deliver m))) :=
  ⟨fun m cs h => broadcast_blocked m cs h,
   fun m cs h => broadcast_complete m cs h⟩

/-- C1 amended at concrete inputs: a full session blocks the broadcast; two
below-capacity sessions both receive the message. -/
theorem C1_broadcast_blocks_on_full_witness :
    broadcast ⟨"u", "hi"⟩ [fullClient] = none ∧
    broadcast ⟨"u", "hi"⟩ [clientC0, (NewClient 1).1] =
      some ([clientC0, (NewClient 1).1].map (deliver ⟨"u", "hi"⟩)) :=
  ⟨C1_broadcast_blocks_on_full.1 ⟨"u", "hi"⟩ [fullClient]
    ⟨fullClient, by simp, by simp [fullClient]⟩,
   C1_broadcast_blocks_on_full.2 ⟨"u", "hi"⟩ [clientC0, (NewClient 1).1]
    (by decide)⟩

/-- C2 (counterexample): after a clean disconnect the session is still a
registry member — the code never removes it, the `c.server.Del(c)` line being
commented out — and a later broadcast still delivers into its queue; moreover
the connection is never closed: the deferred `ws.Close()` runs only when
`listen()` returns, i.e. when the read loop reaches `rDone`, and no reachable
hand-off state has the read loop there. -/
theorem C2_counterexample :
    clientC0 ∈ (addClientAndGreet [] clientC0).1 ∧
    broadcast ⟨"u", "hi"⟩ (addClientAndGreet [] clientC0).1 =
      some [deliver ⟨"u", "hi"⟩ clientC0] ∧
    ¬ ∃ s : HS, hsReachable s ∧ s.rd = RState.rDone := by
  refine ⟨by simp [addClientAndGreet], by decide, ?_⟩
  rintro ⟨s, hs, hrd⟩
  exact mem_hsStates_rd_ne (hsReachable_mem hs) hrd

/-- C2 (amended): on clean disconnect the session is NOT removed from the
registry — registration only ever appends and no removal operation exists in the
code, so a subsequent broadcast still attempts delivery to its queue — and the
connection is NOT closed on this path: the deferred close runs only if the read
loop returns, which no reachable hand-off state achieves. -/
theorem C2_no_removal_no_close :
    (∀ (reg : List Client) (c : Client),
      (addClientAndGreet reg c).1 = reg ++ [c]) ∧
    (∀ (m : Message) (reg : List Client) (c : Client),
      (∀ x ∈ reg ++ [c], x.ch.buf.length < x.ch.cap) →
        broadcast m (reg ++ [c]) = some ((reg ++ [c]).map (deliver m))) ∧
    (∀ s : HS, hsReachable s → s.rd ≠ RState.rDone) :=
  ⟨fun _ _ => rfl,
   fun m _ _ h => broadcast_complete m _ h,
   fun _ hs => mem_hsStates_rd_ne (hsReachable_mem hs)⟩

/-- C2 amended at concrete inputs: one freshly connected session still gets
deliveries, and the initial hand-off state has the read loop not returned. -/
theorem C2_no_removal_no_close_witness :
    broadcast ⟨"u", "hi"⟩ ([] ++ [clientC0]) =
      some (([] ++ [clientC0]).map (deliver ⟨"u", "hi"⟩)) ∧
    initHS.rd ≠ RState.rDone :=
  ⟨C2_no_removal_no_close.2.1 ⟨"u", "hi"⟩ [] clientC0 (by decide),
   C2_no_removal_no_close.2.2 initHS hsReachable.init⟩

/-- C3 (counterexample): no reachable hand-off state has both loops ended — in
fact the read loop never reaches `rDone` — so the termination hand-off after a
clean end-of-stream never completes and `listen()` never returns. -/
theorem C3_counterexample :
    ¬ ∃ s : HS, hsReachable s ∧ s.rd = RState.rDone ∧ s.wr = WState.wDone := by
  rintro ⟨s, hs, hrd, -⟩
  exact mem_hsStates_rd_ne (hsReachable_mem hs) hrd

/-- C3 (amended): after clean end-of-stream the read loop signals termination
and the write loop observes it, sends its reply on `close`, and returns — the
state (rReply, wDone) is reachable — but that state is stuck: the read loop is
blocked forever on its final `c.close <- true`, which nothing can receive, so
the read loop never ends and `listen()` never returns. -/
theorem C3_handoff_deadlock :
    hsReachable ⟨RState.rReply, WState.wDone⟩ ∧
    hsNext ⟨RState.rReply, WState.wDone⟩ = [] ∧
    (∀ s : HS, hsReachable s → s.rd ≠ RState.rDone) := by
  refine ⟨?_, by decide, fun _ hs => mem_hsStates_rd_ne (hsReachable_mem hs)⟩
  have h1 : (⟨RState.rSendEof, WState.wLoop⟩ : HS) ∈ hsNext initHS := by decide
  have h2 : (⟨RState.rLoop, WState.wGotClose⟩ : HS) ∈
      hsNext ⟨RState.rSendEof, WState.wLoop⟩ := by decide
  have h3 : (⟨RState.rLoop, WState.wReply⟩ : HS) ∈
      hsNext ⟨RState.rLoop, WState.wGotClose⟩ := by decide
  have h4 : (⟨RState.rReply, WState.wDone⟩ : HS) ∈
      hsNext ⟨RState.rLoop, WState.wReply⟩ := by decide
  exact hsReachable.step
    (hsReachable.step (hsReachable.step (hsReachable.step hsReachable.init h1) h2) h3) h4

/-- C3 amended at a concrete input: the initial hand-off state has the read loop
not returned. -/
theorem C3_handoff_deadlock_witness : initHS.rd ≠ RState.rDone :=
  C3_handoff_deadlock.2.2 initHS hsReachable.init

/-- C4: the connect entry point appends the new session to the registry, and the
only connection write performed before the loops start is a single greeting
`Message "Server" "Welcome!"` sent directly on the new connection — not through
`broadcast`, so the prior registry entries (and their queues) are returned
untouched and no other session receives it. -/
theorem C4_greeting :
    ∀ (reg : List Client) (ws : Nat),
      (onWsConnectSetup reg ws).1 = reg ++ [(NewClient ws).1] ∧
      (onWsConnectSetup reg ws).2.2 =
        [Effect.connSend ws ⟨"Server", "Welcome!"⟩] :=
  fun _ _ => ⟨rfl, rfl⟩

/-- C5: a successfully decoded message is handed unchanged from the read loop to
`broadcast` over the current registry, and whenever the broadcast can complete
(no queue at capacity) every registry member's queue receives it — the reading
session's own queue included, since it is a registry member like any other and
nothing filters it out. -/
theorem C5_self_echo :
    ∀ (cs : List Client) (m : Message),
      (listenToReadIter cs (RecvResult.ok m)).clients = broadcast m cs ∧
      ((∀ c ∈ cs, c.ch.buf.length < c.ch.cap) →
        broadcast m cs = some (cs.map (deliver m))) :=
  fun cs m => ⟨rfl, fun h => broadcast_complete m cs h⟩

/-- C5 at a concrete input: a registry of two fresh sessions, the first being
the reader; both queues receive the message. -/
theorem C5_self_echo_witness :
    broadcast ⟨"a", "hi"⟩ [clientC0, (NewClient 1).1] =
      some ([clientC0, (NewClient 1).1].map (deliver ⟨"a", "hi"⟩)) :=
  (C5_self_echo [clientC0, (NewClient 1).1] ⟨"a", "hi"⟩).2 (by decide)

/-- C6: for a trigger request whose path carries a body segment, the handler
hands exactly `Message "Server" <text>` to `broadcast` and responds with
"Broadcasting " followed by the text; no session is created — a completed
broadcast preserves the registry's size. -/
theorem C6_trigger :
    ∀ (cs : List Client) (path text : String),
      readMsgFromRequest path = some text →
      broadcastHandler cs path =
        some (broadcast ⟨"Server", text⟩ cs, ⟨"Server", text⟩,
          "Broadcasting " ++ text) ∧
      (∀ cs', broadcast ⟨"Server", text⟩ cs = some cs' →
        cs'.length = cs.length) := by
  intro cs path text h
  refine ⟨?_, fun cs' hb => broadcast_length _ cs cs' hb⟩
  simp [broadcastHandler, h]

/-- C6 at a concrete input: the path "/broadcast/hello" with an empty registry. -/
theorem C6_trigger_witness :
    broadcastHandler [] "/broadcast/hello" =
      some (broadcast ⟨"Server", "hello"⟩ [], ⟨"Server", "hello"⟩,
        "Broadcasting " ++ "hello") :=
  (C6_trigger [] "/broadcast/hello" "hello" (by decide)).1

/-- C7 (counterexample): for the path "/broadcast" — no message segment — the
split has only two components, so the `parts[2]` access of `readMsgFromRequest`
is out of bounds: in Go an index-out-of-range runtime panic, modelled by `none`.
The handler neither broadcasts nor writes any response, so there is no defined
error response. -/
theorem C7_counterexample :
    readMsgFromRequest "/broadcast" = none ∧
    broadcastHandler [] "/broadcast" = none ∧
    (splitGo "/broadcast").length = 2 :=
  ⟨rfl, rfl, rfl⟩

/-- C7 (amended): whenever the request path splits into fewer than three
components, `readMsgFromRequest` indexes out of bounds — a Go runtime panic,
modelled `none` — and the handler produces neither a broadcast nor a response:
the code has no defined error response for malformed trigger input. -/
theorem C7_oob_on_short_path :
    ∀ (path : String) (cs : List Client),
      (splitGo path).length < 3 →
      readMsgFromRequest path = none ∧ broadcastHandler cs path = none := by
  intro path cs h
  have hr : readMsgFromRequest path = none := by
    unfold readMsgFromRequest
    exact List.get?_eq_none.mpr (by omega)
  exact ⟨hr, by simp [broadcastHandler, hr]⟩

/-- C7 amended at a concrete input: the path "/broadcast". -/
theorem C7_oob_on_short_path_witness :
    readMsgFromRequest "/broadcast" = none ∧
    broadcastHandler [] "/broadcast" = none :=
  C7_oob_on_short_path "/broadcast" [] (by decide)

/-- C8: on a receive/decode error other than clean end-of-stream, one iteration
of the read loop prints the received line, does not signal termination, does not
broadcast — the registry and every queue are untouched — and falls through to
the next iteration of the loop. -/
theorem C8_error_swallowed :
    ∀ cs : List Client,
      listenToReadIter cs RecvResult.errR =
        { clients := some cs, closeSignal := false, loopsAgain := true,
          effects := [printReceived ⟨"", ""⟩] } :=
  fun _ => rfl

/-- C9: `NewClient` stores the connection handle, allocates the inbound queue as
a buffered channel of capacity exactly 100 (initially empty) and the termination
signal as an unbuffered channel (capacity 0 — the code's one-shot `close`
signal), and performs no I/O. -/
theorem C9_construction :
    ∀ ws : Nat,
      (NewClient ws).1.connection = ws ∧
      (NewClient ws).1.ch = ⟨[], 100⟩ ∧
      (NewClient ws).1.close = ⟨[], 0⟩ ∧
      (NewClient ws).2 = [] :=
  fun _ => ⟨rfl, rfl, rfl, rfl⟩

/-- C10: whenever the request path splits into at least three slash-separated
components, the body handed to broadcast is exactly the third component — any
further segments are ignored — and the path "/broadcast/" (empty third
component) yields the empty string. -/
theorem C10_third_component :
    (∀ (path : String) (a b c : String) (rest : List String),
      splitGo path = a :: b :: c :: rest → readMsgFromRequest path = some c) ∧
    readMsgFromRequest "/broadcast/" = some "" ∧
    readMsgFromRequest "/broadcast/a/b/c" = some "a" := by
  refine ⟨?_, rfl, rfl⟩
  intro path a b c rest h
  unfold readMsgFromRequest
  rw [h]
  rfl

/-- C10 at a concrete input: the path "/broadcast/x/y" yields body "x", the
trailing segment ignored. -/
theorem C10_third_component_witness :
    readMsgFromRequest "/broadcast/x/y" = some "x" :=
  C10_third_component.1 "/broadcast/x/y" "" "broadcast" "x" ["y"] (by decide)
